import Mathlib

/-!
Verification development for the Cortex Context MCP adapter
(repository `CortexGuardAI/mcp`).

The definitions below are a shallow embedding, into Lean, of the
TypeScript sources of the repository:

* `src/http-client.ts`   — HTTP status → JSON-RPC error mapping,
* `src/rpc-handler.ts`   — request correlation, per-request timeout,
  shutdown draining,
* `src/method-dispatcher.ts` — session lifecycle, tool dispatch,
* `src/server.ts`        — keyed write-deduplication for file creation,
* `stdio-transport.ts`   — Content-Length framing codec,
* `utils.ts`             — retry combinator and network-error predicate.

JavaScript strings are modelled as `List Char`; the adapter only ever
manipulates characters of the Basic Multilingual Plane, where one Lean
`Char` corresponds to one UTF-16 code unit, so JavaScript's
`String.prototype.length` / `substring` correspond to `List.length` /
`take`/`drop`.  UTF-8 byte counts (`Buffer.byteLength`) are modelled by
an explicit per-character width function.  Asynchronous code is
modelled either as explicit sequential functions over oracle outcomes
(when no interleaving matters) or as a small-step scheduler over atomic
blocks separated by `await` points (for the write-deduplication races).
-/

namespace Mcp

/-! JSON-RPC error codes, from the `JsonRpcErrorCode` enum in `types.ts`. -/

namespace JsonRpcErrorCode

def PARSE_ERROR : Int := -32700
def INVALID_REQUEST : Int := -32600
def METHOD_NOT_FOUND : Int := -32601
def INVALID_PARAMS : Int := -32602
def INTERNAL_ERROR : Int := -32603
def SERVER_ERROR : Int := -32000
def UNAUTHORIZED : Int := -32001
def FORBIDDEN : Int := -32002
def NOT_FOUND : Int := -32003
def RATE_LIMITED : Int := -32004
def SERVICE_UNAVAILABLE : Int := -32005

end JsonRpcErrorCode

/-! ## Backend gateway error translation (`src/http-client.ts`) -/

/-- One row of the status → error-code table (`ErrorMapping` in `types.ts`). -/
structure ErrorMapping where
  httpStatus : Nat
  jsonRpcCode : Int
  message : String
deriving Repr, DecidableEq

/-- The fixed table `ERROR_MAPPINGS` from `src/http-client.ts` lines 4-14. -/
def ERROR_MAPPINGS : List ErrorMapping :=
  [ { httpStatus := 400, jsonRpcCode := JsonRpcErrorCode.INVALID_PARAMS, message := "Invalid request parameters" },
    { httpStatus := 401, jsonRpcCode := JsonRpcErrorCode.UNAUTHORIZED, message := "Unauthorized" },
    { httpStatus := 403, jsonRpcCode := JsonRpcErrorCode.FORBIDDEN, message := "Forbidden" },
    { httpStatus := 404, jsonRpcCode := JsonRpcErrorCode.NOT_FOUND, message := "Resource not found" },
    { httpStatus := 429, jsonRpcCode := JsonRpcErrorCode.RATE_LIMITED, message := "Rate limit exceeded" },
    { httpStatus := 500, jsonRpcCode := JsonRpcErrorCode.INTERNAL_ERROR, message := "Internal server error" },
    { httpStatus := 502, jsonRpcCode := JsonRpcErrorCode.SERVICE_UNAVAILABLE, message := "Bad gateway" },
    { httpStatus := 503, jsonRpcCode := JsonRpcErrorCode.SERVICE_UNAVAILABLE, message := "Service unavailable" },
    { httpStatus := 504, jsonRpcCode := JsonRpcErrorCode.SERVICE_UNAVAILABLE, message := "Gateway timeout" } ]

/-- The observable result of `JSON.parse` on a backend response body, as the
adapter inspects it: `mapHttpError` only ever reads the `retryAfter` and
`message` fields of the parsed object.  `parsed = none` models a body that is
not valid JSON (`JSON.parse` throws). -/
structure ParsedBody where
  retryAfter : Option Int := none
  message : Option String := none
deriving Repr, DecidableEq

/-- A backend response body: the raw text plus the outcome of `JSON.parse`
on it (packaged with the input, since the adapter treats the JSON parser as
an external primitive). -/
structure RespBody where
  raw : String
  parsed : Option ParsedBody
deriving Repr, DecidableEq

/-- Diagnostic `data` assembled by `mapHttpError`: `http_status`, optional
`retry_after`, optional `details`. -/
structure ErrData where
  httpStatus : Option Nat := none
  retryAfter : Option Int := none
  details : Option String := none
deriving Repr, DecidableEq

/-- A mapped protocol error `{ code, message, data? }`. -/
structure MappedError where
  code : Int
  message : String
  data : Option ErrData := none
deriving Repr, DecidableEq

/-- JavaScript truthiness of an optional number (`if (response.retryAfter)`):
absent, `0` are falsy. -/
def truthyInt : Option Int → Bool
  | none => false
  | some v => v != 0

/-- JavaScript truthiness of an optional string (`if (parsed.message)`):
absent and the empty string are falsy. -/
def truthyStr : Option String → Bool
  | none => false
  | some s => s != ""

/-- `HttpClient.mapHttpError` (`src/http-client.ts` lines 49-94): look the
status up in `ERROR_MAPPINGS`; on a hit, build diagnostic data carrying the
status, the `retryAfter` field for 429 bodies, and the parsed `message` (or
the raw text when the body is not JSON); on a miss, fall back to an internal
error whose message carries the raw status and body. -/
def mapHttpError (status : Nat) (body : RespBody) : MappedError :=
  match ERROR_MAPPINGS.find? (fun m => m.httpStatus = status) with
  | some mapping =>
    let errorData : ErrData := { httpStatus := some status }
    let errorData :=
      if status = 429 then
        match body.parsed with
        | some p => if truthyInt p.retryAfter then { errorData with retryAfter := p.retryAfter } else errorData
        | none => errorData
      else errorData
    let errorData :=
      if body.raw != "" then
        match body.parsed with
        | some p => if truthyStr p.message then { errorData with details := p.message } else errorData
        | none => { errorData with details := some body.raw }
      else errorData
    { code := mapping.jsonRpcCode, message := mapping.message, data := some errorData }
  | none =>
    { code := JsonRpcErrorCode.INTERNAL_ERROR,
      message := "HTTP " ++ toString status ++ ": " ++ (if body.raw != "" then body.raw else "Unknown error"),
      data := some { httpStatus := some status } }

/-- The concrete 429 body `{retryAfter:5}` used by the spec's test vector. -/
def body429 : RespBody :=
  { raw := "\x7b\x22retryAfter\x22:5\x7d",
    parsed := some { retryAfter := some 5 } }

end Mcp

namespace Mcp

/-- C5: for every non-2xx backend HTTP response, `mapHttpError` maps the
status via the fixed table (400→invalid params, 401→unauthorized,
403→forbidden, 404→not found with message "Resource not found",
429→rate limited, 500→internal, 502/503/504→service unavailable); for 429
with a body containing `retryAfter:5` the error's data carries
`retry_after = 5`; and for the unmapped status 418 the result is an
internal-error code whose message contains the raw status number "418". -/
theorem C5_http_error_mapping :
    (∀ b, (mapHttpError 400 b).code = JsonRpcErrorCode.INVALID_PARAMS) ∧
    (∀ b, (mapHttpError 401 b).code = JsonRpcErrorCode.UNAUTHORIZED) ∧
    (∀ b, (mapHttpError 403 b).code = JsonRpcErrorCode.FORBIDDEN) ∧
    (∀ b, (mapHttpError 404 b).code = JsonRpcErrorCode.NOT_FOUND ∧
          (mapHttpError 404 b).message = "Resource not found") ∧
    (∀ b, (mapHttpError 429 b).code = JsonRpcErrorCode.RATE_LIMITED) ∧
    (∀ b, (mapHttpError 500 b).code = JsonRpcErrorCode.INTERNAL_ERROR) ∧
    (∀ b, (mapHttpError 502 b).code = JsonRpcErrorCode.SERVICE_UNAVAILABLE) ∧
    (∀ b, (mapHttpError 503 b).code = JsonRpcErrorCode.SERVICE_UNAVAILABLE) ∧
    (∀ b, (mapHttpError 504 b).code = JsonRpcErrorCode.SERVICE_UNAVAILABLE) ∧
    ((mapHttpError 429 body429).data.map ErrData.retryAfter = some (some 5)) ∧
    (∀ b, (mapHttpError 418 b).code = JsonRpcErrorCode.INTERNAL_ERROR ∧
          ∃ pre post, (mapHttpError 418 b).message.data = pre ++ "418".data ++ post) := by
  refine ⟨fun b => rfl, fun b => rfl, fun b => rfl, fun b => ⟨rfl, rfl⟩,
    fun b => rfl, fun b => rfl, fun b => rfl, fun b => rfl, fun b => rfl,
    by decide, fun b => ⟨rfl, ?_⟩⟩
  refine ⟨"HTTP ".data, (": " ++ (if b.raw != "" then b.raw else "Unknown error")).data, ?_⟩
  show ("HTTP " ++ toString 418 ++ ": " ++ _).data = _
  simp only [String.data_append]
  rfl

end Mcp

namespace Mcp

/-! ## Request router: per-request timeout and correlation
(`src/rpc-handler.ts`, `RpcHandler.handleRequest`, lines 94-159) -/

/-- The payload of a JSON-RPC response sent by the adapter. -/
inductive RespPayload
  | result
  | error (code : Int) (message : String)
deriving Repr, DecidableEq

/-- A response on the wire: correlation id plus payload. -/
structure Response where
  id : Nat
  payload : RespPayload
deriving Repr, DecidableEq

/-- The fixed per-request timeout of `handleRequest` (30 second `setTimeout`). -/
def REQUEST_TIMEOUT_MS : Nat := 30000

/-- The "Request timeout" error response built inside the `setTimeout`
callback (lines 100-108). -/
def timeoutResponse (id : Nat) : Response :=
  { id := id, payload := .error JsonRpcErrorCode.SERVER_ERROR "Request timeout" }

/-- The success response built after `dispatcher.handleRequest` fulfills
(lines 136-142). -/
def resultResponse (id : Nat) : Response :=
  { id := id, payload := .result }

/-- The mapped error response built in the `catch` branch (lines 143-157);
the mapped code/message depend on the thrown error, abstracted here. -/
def dispatchErrorResponse (id : Nat) (code : Int) (msg : String) : Response :=
  { id := id, payload := .error code msg }

/-- How the dispatcher's promise for one request settles: fulfills or
rejects at time `t` (milliseconds after the request was received), or
never settles. -/
inductive DispatchOutcome
  | fulfills (t : Nat)
  | rejects (t : Nat) (code : Int) (msg : String)
  | never
deriving Repr, DecidableEq

/-- Correlation state of one in-flight request: whether its id is still in
`pendingRequests`, whether its timeout is still armed (not yet fired and
not yet cleared), and the responses sent so far, in order. -/
structure ReqState where
  pending : Bool
  timerArmed : Bool
  sent : List Response
deriving Repr, DecidableEq

/-- The `setTimeout` callback (lines 98-110): if the timer is still armed
when 30 000 ms elapse, it deletes the id from `pendingRequests` and sends
the timeout error response.  Nothing in the callback remembers, for the
continuation of the still-running dispatch, that a response was already
sent. -/
def fireTimer (id : Nat) (s : ReqState) : ReqState :=
  if s.timerArmed then
    { pending := false, timerArmed := false, sent := s.sent ++ [timeoutResponse id] }
  else s

/-- The continuation after `await dispatcher.handleRequest` settles
(lines 132-157): `clearTimeout` (a no-op if the timer already fired),
delete the id from `pendingRequests`, and send the result (or mapped
error) response — unconditionally. -/
def settleDispatch (r : Response) (s : ReqState) : ReqState :=
  { pending := false, timerArmed := false, sent := s.sent ++ [r] }

/-- `RpcHandler.handleRequest` for one request with the given dispatcher
outcome, with the timer event and the settlement continuation applied in
time order (a settlement at `t ≤ 30000` runs before the timer can fire;
a later settlement runs after the timer fired at 30 000 ms). -/
def runRequest (id : Nat) (o : DispatchOutcome) : ReqState :=
  let s0 : ReqState := { pending := true, timerArmed := true, sent := [] }
  match o with
  | .never => fireTimer id s0
  | .fulfills t =>
    if t ≤ REQUEST_TIMEOUT_MS then fireTimer id (settleDispatch (resultResponse id) s0)
    else settleDispatch (resultResponse id) (fireTimer id s0)
  | .rejects t code msg =>
    if t ≤ REQUEST_TIMEOUT_MS then fireTimer id (settleDispatch (dispatchErrorResponse id code msg) s0)
    else settleDispatch (dispatchErrorResponse id code msg) (fireTimer id s0)

/-- C1 (code bug): the timeout half of the claim does hold — a request whose
handling never completes gets exactly one timeout error response and its id
leaves the pending set — but the "no further response" half fails: for a
request (id 1) whose dispatcher resolves at 30 001 ms, the adapter first
sends the timeout error response at 30 000 ms and then also sends the
result response when the handler resolves, i.e. two responses bearing the
same id. -/
theorem C1_duplicate_response_after_timeout :
    (runRequest 1 .never).sent = [timeoutResponse 1] ∧
    (runRequest 1 .never).pending = false ∧
    (runRequest 1 (.fulfills 30001)).sent = [timeoutResponse 1, resultResponse 1] ∧
    ((runRequest 1 (.fulfills 30001)).sent.map Response.id = [1, 1] ∧
     (runRequest 1 (.fulfills 30001)).sent.length = 2) := by
  decide

end Mcp

namespace Mcp

/-! ## Request router: shutdown draining
(`src/rpc-handler.ts`, `RpcHandler.handleMessage` lines 39-55 and
`RpcHandler.shutdown` lines 183-221) -/

/-- An incoming message as classified by `isRequest`/`isNotification`. -/
inductive InMessage
  | request (id : Nat) (method : String)
  | notification (method : String)
  | invalid
deriving Repr, DecidableEq

/-- The "Server is shutting down" error response sent for a request that
arrives after the shutdown flag is set (lines 43-52). -/
def shuttingDownResponse (id : Nat) : Response :=
  { id := id, payload := .error JsonRpcErrorCode.SERVER_ERROR "Server is shutting down" }

/-- The "Server shutting down" error response sent while draining a
pending request during shutdown (lines 192-205). -/
def shutdownDrainResponse (id : Nat) : Response :=
  { id := id, payload := .error JsonRpcErrorCode.SERVER_ERROR "Server shutting down" }

/-- `RpcHandler.handleMessage` once `isShuttingDown` is set (lines 40-55):
a request is answered with the shutting-down error; notifications and
invalid messages are dropped; nothing reaches the dispatcher.  Returns the
responses sent and whether the message was dispatched. -/
def handleMessageWhileShuttingDown : InMessage → List Response × Bool
  | .request id _ => ([shuttingDownResponse id], false)
  | .notification _ => ([], false)
  | .invalid => ([], false)

/-- One entry of `pendingRequests`: a request id with its timeout handle. -/
structure PendingEntry where
  id : Nat
  timerArmed : Bool
deriving Repr, DecidableEq

/-- What the router writes to the transport. -/
inductive WireAction
  | send (r : Response)
  | closeStream
deriving Repr, DecidableEq

/-- The drain loop of `shutdown` (lines 198-212): for each pending entry,
in map order, clear its timeout and send the shutdown error response. -/
def drainPending : List PendingEntry → List WireAction × List PendingEntry
  | [] => ([], [])
  | e :: rest =>
    let (acts, cleared) := drainPending rest
    (WireAction.send (shutdownDrainResponse e.id) :: acts,
     { e with timerArmed := false } :: cleared)

/-- `RpcHandler.shutdown` (lines 183-221): drain every pending request,
clear the pending map, then close the transport.  Returns the ordered
wire actions and the pending map afterwards. -/
def shutdownRun (pending : List PendingEntry) : List WireAction × List PendingEntry :=
  let (acts, _) := drainPending pending
  (acts ++ [WireAction.closeStream], [])

/-- The drain loop sends exactly one shutdown error per pending entry, in
order, with all timers cleared. -/
theorem drainPending_eq (pending : List PendingEntry) :
    drainPending pending =
      (pending.map (fun e => WireAction.send (shutdownDrainResponse e.id)),
       pending.map (fun e => { e with timerArmed := false })) := by
  induction pending with
  | nil => rfl
  | cons e rest ih => simp [drainPending, ih]

/-- C9: after the shutdown flag is set, every newly arriving request gets a
"shutting down" error response and is never dispatched; and every request
pending at shutdown receives a shutdown error response — with its timer
cleared in the drain loop — strictly before the transport close action,
which is the last wire action. -/
theorem C9_shutdown_draining (pending : List PendingEntry) (e : PendingEntry)
    (hmem : e ∈ pending) :
    (∀ id method, handleMessageWhileShuttingDown (.request id method) =
        ([shuttingDownResponse id], false)) ∧
    (∀ m, (handleMessageWhileShuttingDown m).2 = false) ∧
    (shutdownRun pending).1.getLast? = some WireAction.closeStream ∧
    WireAction.send (shutdownDrainResponse e.id) ∈ (shutdownRun pending).1.dropLast ∧
    (∀ e2 ∈ (drainPending pending).2, e2.timerArmed = false) ∧
    (shutdownRun pending).2 = [] := by
  refine ⟨fun id method => rfl, fun m => by cases m <;> rfl, ?_, ?_, ?_, rfl⟩
  · simp [shutdownRun, drainPending_eq]
  · simp only [shutdownRun, drainPending_eq, List.dropLast_concat]
    exact List.mem_map_of_mem _ hmem
  · intro e2 h2
    rw [drainPending_eq] at h2
    simp only [List.mem_map] at h2
    obtain ⟨a, _, rfl⟩ := h2
    rfl

/-- Witness for C9 at a concrete pending set. -/
theorem C9_shutdown_draining_witness :
    ⟨3, true⟩ ∈ [(⟨3, true⟩ : PendingEntry), ⟨7, true⟩] ∧
    WireAction.send (shutdownDrainResponse 3) ∈
      (shutdownRun [⟨3, true⟩, ⟨7, true⟩]).1.dropLast := by
  have h := C9_shutdown_draining [⟨3, true⟩, ⟨7, true⟩] ⟨3, true⟩ (by decide)
  exact ⟨by decide, h.2.2.2.1⟩

end Mcp

namespace Mcp

/-! ## Session lifecycle: fallback promotion timer
(`src/method-dispatcher.ts`: constructor lines 49-65, `handleInitialized`
lines 208-230, `handleRequest` gate lines 106-135) -/

/-- The fallback promotion delay: the constructor arms
`initializationTimeout` with 15 000 ms. -/
def INIT_FALLBACK_MS : Nat := 15000

/-- The dispatcher's initialization state: the `isInitialized` flag, whether
`initializationTimeout` is still armed (non-null and not yet fired), and
whether the fallback callback logged its "assuming ready" warning. -/
structure SessionState where
  isInitialized : Bool
  timerActive : Bool
  fallbackWarned : Bool
deriving Repr, DecidableEq

/-- State as set up by the constructor: not initialized, fallback timer
armed, no warning yet. -/
def initialSession : SessionState :=
  { isInitialized := false, timerActive := true, fallbackWarned := false }

/-- The fallback timer callback (constructor lines 51-64): when the timer
fires, if `isInitialized` is still false it logs a warning and forces
`isInitialized := true`. -/
def fireInitFallback (s : SessionState) : SessionState :=
  if s.timerActive then
    if !s.isInitialized then
      { isInitialized := true, timerActive := false, fallbackWarned := true }
    else { s with timerActive := false }
  else s

/-- `handleInitialized` (lines 208-230): mark initialized and clear the
fallback timer. -/
def handleInitializedEvent (s : SessionState) : SessionState :=
  { isInitialized := true, timerActive := false, fallbackWarned := s.fallbackWarned }

/-- The session state at absolute time `t` (milliseconds after the
dispatcher's construction), given an optional arrival time `tn` of the
`initialized` notification.  The fallback timer fires at 15 000 ms after
construction; events are applied in chronological order (with the timer
first on a tie, matching macrotask timers v. stream data handlers only up
to the tie, which the theorems below avoid). -/
def sessionAt (tn : Option Nat) (t : Nat) : SessionState :=
  match tn with
  | none => if INIT_FALLBACK_MS ≤ t then fireInitFallback initialSession else initialSession
  | some n =>
    if n < INIT_FALLBACK_MS then
      let s1 := if n ≤ t then handleInitializedEvent initialSession else initialSession
      if INIT_FALLBACK_MS ≤ t then fireInitFallback s1 else s1
    else
      let s1 := if INIT_FALLBACK_MS ≤ t then fireInitFallback initialSession else initialSession
      if n ≤ t then handleInitializedEvent s1 else s1

/-- The entry gate of `handleRequest` (lines 106-135): a method received
before initialization only triggers a warning; the `switch` dispatches every
known method regardless of `isInitialized`.  Returns
(dispatched, warnedBeforeReady). -/
def handleRequestEntry (isInit : Bool) (method : String) : Bool × Bool :=
  let isInitMethod := method == "initialize" || method == "initialized"
  let warned := !isInitMethod && !isInit
  let dispatched := method == "initialize" || method == "initialized" ||
    method == "resources/list" || method == "resources/read" ||
    method == "tools/list" || method == "tools/call"
  (dispatched, warned)

/-- C6: if no `initialized` notification arrives within 15 000 ms of the
`initialize` request (received at time `ti` after construction), then by
time `ti + 15000` the fallback timer has promoted the session to Ready
with the warning logged, and a subsequent `tools/call` is dispatched;
while if the notification arrives before the fallback timer fires, the
session is Ready, the timer was cancelled, and no fallback warning is ever
logged. -/
theorem C6_init_fallback (ti : Nat) (tn : Option Nat)
    (hlate : tn = none ∨ ∃ n, tn = some n ∧ ti + INIT_FALLBACK_MS < n) :
    ((sessionAt tn (ti + INIT_FALLBACK_MS)).isInitialized = true ∧
     (sessionAt tn (ti + INIT_FALLBACK_MS)).fallbackWarned = true ∧
     (handleRequestEntry (sessionAt tn (ti + INIT_FALLBACK_MS)).isInitialized "tools/call").1 = true) ∧
    (∀ n t, n < INIT_FALLBACK_MS → n ≤ t →
      (sessionAt (some n) t).isInitialized = true ∧
      (sessionAt (some n) t).timerActive = false ∧
      (sessionAt (some n) t).fallbackWarned = false) := by
  constructor
  · have hfire : INIT_FALLBACK_MS ≤ ti + INIT_FALLBACK_MS := Nat.le_add_left _ _
    rcases hlate with h | ⟨n, rfl, hn⟩
    · subst h
      simp [sessionAt, hfire, fireInitFallback, initialSession, handleRequestEntry]
    · have h1 : ¬ n < INIT_FALLBACK_MS := by omega
      have h2 : ¬ n ≤ ti + INIT_FALLBACK_MS := by omega
      simp [sessionAt, h1, h2, hfire, fireInitFallback, initialSession, handleRequestEntry]
  · intro n t hn ht
    by_cases hts : INIT_FALLBACK_MS ≤ t <;>
      simp [sessionAt, hn, ht, hts, handleInitializedEvent, fireInitFallback, initialSession]

/-- Witness for C6: notification never sent with `initialize` at 2 000 ms
(first half), and notification at 1 000 ms observed at 20 000 ms
(second half). -/
theorem C6_init_fallback_witness :
    (sessionAt none (2000 + INIT_FALLBACK_MS)).isInitialized = true ∧
    (sessionAt (some 1000) 20000).fallbackWarned = false := by
  refine ⟨(C6_init_fallback 2000 none (Or.inl rfl)).1.1, ?_⟩
  exact ((C6_init_fallback 0 none (Or.inl rfl)).2 1000 20000 (by decide) (by decide)).2.2

end Mcp

namespace Mcp

/-! ## Retry-with-backoff combinator
(`utils.ts`: `ErrorUtils.isNetworkError`, `RetryUtils.withRetry`) -/

/-- The `code` property of a thrown JavaScript error: Node network errors
carry string codes (`'ECONNREFUSED'`, …); the adapter's mapped HTTP errors
carry numeric JSON-RPC codes. -/
inductive JsCode
  | str (s : String)
  | num (n : Int)
deriving Repr, DecidableEq

/-- A thrown error as `RetryUtils` observes it. -/
structure JsError where
  code : Option JsCode := none
  message : String := ""
deriving Repr, DecidableEq

/-- `ErrorUtils.isNetworkError` (`utils.ts` lines 339-347): true exactly for
the four transient network error codes; a `===` comparison against these
strings, so numeric (mapped HTTP) codes never match. -/
def isNetworkError (e : JsError) : Bool :=
  e.code == some (.str "ECONNREFUSED") ||
  e.code == some (.str "ENOTFOUND") ||
  e.code == some (.str "ETIMEDOUT") ||
  e.code == some (.str "ECONNRESET")

/-- The loop body of `RetryUtils.withRetry` (`utils.ts` lines 419-449),
instrumented with the number of `operation()` invocations.  The source
iterates `attempt = 0 … maxRetries`; here `remaining = maxRetries - attempt`
counts the iterations still allowed, so `remaining = 0` is the
`attempt === maxRetries` break that rethrows `lastError`.  A non-network
error is rethrown immediately without further attempts. -/
def withRetryGo {T : Type} (op : Nat → Except JsError T) (maxRetries : Nat) :
    Nat → Nat → Except JsError T × Nat
  | remaining, calls =>
    match op (maxRetries - remaining) with
    | .ok v => (.ok v, calls + 1)
    | .error e =>
      match remaining with
      | 0 => (.error e, calls + 1)
      | r + 1 =>
        if !isNetworkError e then (.error e, calls + 1)
        else withRetryGo op maxRetries r (calls + 1)

/-- `RetryUtils.withRetry` with its default `maxRetries = 3`: run the loop
from `attempt = 0`.  The operation is modelled as an oracle giving the
outcome of each attempt; the backoff delay does not affect which outcome is
returned.  The second component is the number of attempts performed. -/
def withRetry {T : Type} (op : Nat → Except JsError T) (maxRetries : Nat := 3) :
    Except JsError T × Nat :=
  withRetryGo op maxRetries maxRetries 0

/-- The loop performs at most `remaining + 1` further attempts. -/
theorem withRetryGo_calls_le {T : Type} (op : Nat → Except JsError T)
    (maxRetries : Nat) :
    ∀ remaining calls, (withRetryGo op maxRetries remaining calls).2 ≤ calls + remaining + 1 := by
  intro remaining
  induction remaining with
  | zero =>
    intro calls
    unfold withRetryGo
    cases op (maxRetries - 0) <;> simp
  | succ r ih =>
    intro calls
    unfold withRetryGo
    cases op (maxRetries - (r + 1)) with
    | ok v => simp
    | error e =>
      by_cases hne : isNetworkError e
      · simpa [hne] using (ih (calls + 1)).trans (by omega)
      · simp [hne]

/-- C8: `withRetry` with its default of 3 retries performs at most
3 + 1 = 4 attempts in total; an error on the first attempt that is not a
network-class error is rethrown immediately after exactly one attempt; and
a mapped HTTP error (numeric `code`) is never classified as a network
error, hence never retried. -/
theorem C8_retry_combinator {T : Type} (op : Nat → Except JsError T) :
    (withRetry op).2 ≤ 4 ∧
    (∀ e, op 0 = .error e → isNetworkError e = false → withRetry op = (.error e, 1)) ∧
    (∀ n msg, isNetworkError { code := some (.num n), message := msg } = false) := by
  refine ⟨?_, ?_, fun n msg => rfl⟩
  · simpa using withRetryGo_calls_le op 3 3 0
  · intro e h0 hnet
    unfold withRetry withRetryGo
    simp [h0, hnet]

/-- Witness for C8: an operation whose first attempt fails with a mapped
HTTP 404 error is not retried — one attempt, error rethrown. -/
theorem C8_retry_combinator_witness :
    withRetry (T := Unit)
        (fun _ => .error { code := some (.num JsonRpcErrorCode.NOT_FOUND), message := "Resource not found" }) =
      (.error { code := some (.num JsonRpcErrorCode.NOT_FOUND), message := "Resource not found" }, 1) := by
  exact (C8_retry_combinator _).2.1 _ rfl rfl

end Mcp

namespace Mcp

/-! ## Tool dispatch and its two failure channels
(`src/method-dispatcher.ts`: `UUID_REGEX` line 20, `handleToolsCall`
lines 364-439, `callGetContexts` / `callGetFile` / `callAddFile`
lines 441-558).  Diagnostic `data` payloads attached to thrown protocol
errors are not modelled (no claim depends on them). -/

/-- Hexadecimal digit, case-insensitive (`[0-9a-f]` with the `i` flag). -/
def isHexDigit (c : Char) : Bool :=
  ('0' ≤ c && c ≤ '9') || ('a' ≤ c && c ≤ 'f') || ('A' ≤ c && c ≤ 'F')

/-- Consume exactly `n` hex digits. -/
def hexRun : Nat → List Char → Option (List Char)
  | 0, rest => some rest
  | _ + 1, [] => none
  | n + 1, c :: rest => if isHexDigit c then hexRun n rest else none

/-- Consume a literal dash. -/
def expectDash : List Char → Option (List Char)
  | '-' :: rest => some rest
  | _ => none

/-- The UUID version nibble `[1-5]`. -/
def isUuidVersion (c : Char) : Bool := '1' ≤ c && c ≤ '5'

/-- The UUID variant nibble `[89ab]`, case-insensitive. -/
def isUuidVariant (c : Char) : Bool :=
  c == '8' || c == '9' || c == 'a' || c == 'b' || c == 'A' || c == 'B'

/-- `UUID_REGEX.test`: the anchored pattern
`[0-9a-f]{8}-[0-9a-f]{4}-[1-5][0-9a-f]{3}-[89ab][0-9a-f]{3}-[0-9a-f]{12}`,
case-insensitive. -/
def uuidTest (s : String) : Bool :=
  (do
    let r ← hexRun 8 s.data
    let r ← expectDash r
    let r ← hexRun 4 r
    let r ← expectDash r
    let r ← match r with
      | c :: rest => if isUuidVersion c then some rest else none
      | [] => none
    let r ← hexRun 3 r
    let r ← expectDash r
    let r ← match r with
      | c :: rest => if isUuidVariant c then some rest else none
      | [] => none
    let r ← hexRun 3 r
    let r ← expectDash r
    let r ← hexRun 12 r
    if r.isEmpty then some () else none).isSome

/-- JavaScript `a || b` for an optional string `a` (absent and `""` falsy). -/
def jsOrS (a : Option String) (b : String) : String :=
  match a with
  | some s => if s = "" then b else s
  | none => b

/-- A context entry as read from the listing response
(`response.data?.result?.contexts`): `name`, `id`, optional `mimeType`,
optional `metadata.file_type`. -/
structure Ctx where
  name : String
  id : String
  mimeType : Option String := none
  fileTypeMeta : Option String := none
deriving Repr, DecidableEq

/-- A file entry as read from a get-file / add-file response. -/
structure FileData where
  name : String
  id : String
  size : Nat
  content : String
  mimeType : Option String := none
  fileTypeMeta : Option String := none
deriving Repr, DecidableEq

/-- A tool result `{ content: [{type:'text', text}], isError? }`; the
dispatcher always produces a single text item, modelled as the list of
text payloads. -/
structure ToolResult where
  content : List String
  isError : Bool := false
deriving Repr, DecidableEq

/-- The `arguments` object of a `tools/call` request, restricted to the
fields the three tools read. -/
structure ToolCallArgs where
  project_id : Option String := none
  file_id : Option String := none
  filename : Option String := none
  content : Option String := none
  file_type : Option String := none
deriving Repr, DecidableEq

/-- The `params` of a `tools/call` request. -/
structure ToolCallParams where
  name : Option String := none
  arguments : ToolCallArgs := {}
deriving Repr, DecidableEq

/-- `mimeType || metadata?.file_type || 'unknown'`. -/
def displayType (mime fileTypeMeta : Option String) : String :=
  jsOrS mime (jsOrS fileTypeMeta "unknown")

/-- `callGetContexts` (lines 441-469): validate `project_id` against the
UUID pattern (throwing invalid-params), then call the gateway; a gateway
failure is caught and turned into an error-flagged tool result whose text
carries the error message. -/
def callGetContexts (args : ToolCallArgs) (gw : Except MappedError (List Ctx)) :
    Except MappedError ToolResult :=
  if !truthyStr args.project_id || !uuidTest (args.project_id.getD "") then
    .error { code := JsonRpcErrorCode.INVALID_PARAMS, message := "Invalid or missing project_id" }
  else
    match gw with
    | .ok contexts =>
      .ok { content := ["Found " ++ toString contexts.length ++ " context file(s):\n\n" ++
              String.intercalate "\n" (contexts.map (fun c =>
                "• " ++ c.name ++ " (" ++ c.id ++ ") - " ++ displayType c.mimeType c.fileTypeMeta))] }
    | .error e =>
      .ok { content := ["Error getting contexts: " ++ e.message], isError := true }

/-- `callGetFile` (lines 471-507). -/
def callGetFile (args : ToolCallArgs) (gw : Except MappedError FileData) :
    Except MappedError ToolResult :=
  if !truthyStr args.project_id || !uuidTest (args.project_id.getD "") then
    .error { code := JsonRpcErrorCode.INVALID_PARAMS, message := "Invalid or missing project_id" }
  else if !truthyStr args.file_id || !uuidTest (args.file_id.getD "") then
    .error { code := JsonRpcErrorCode.INVALID_PARAMS, message := "Invalid or missing file_id" }
  else
    match gw with
    | .ok file =>
      .ok { content := ["File: " ++ file.name ++ "\nSize: " ++ toString file.size ++
              " bytes\nType: " ++ displayType file.mimeType file.fileTypeMeta ++
              "\n\nContent:\n" ++ file.content] }
    | .error e =>
      .ok { content := ["Error getting file: " ++ e.message], isError := true }

/-- `callAddFile` (lines 509-558). -/
def callAddFile (args : ToolCallArgs) (gw : Except MappedError FileData) :
    Except MappedError ToolResult :=
  if !truthyStr args.project_id || !uuidTest (args.project_id.getD "") then
    .error { code := JsonRpcErrorCode.INVALID_PARAMS, message := "Invalid or missing project_id" }
  else if !truthyStr args.filename then
    .error { code := JsonRpcErrorCode.INVALID_PARAMS, message := "Invalid or missing filename" }
  else if !truthyStr args.content then
    .error { code := JsonRpcErrorCode.INVALID_PARAMS, message := "Invalid or missing file content" }
  else
    match gw with
    | .ok file =>
      .ok { content := ["File added successfully:\n• Name: " ++ file.name ++ "\n• ID: " ++ file.id ++
              "\n• Size: " ++ toString file.size ++ " bytes\n• Type: " ++
              displayType file.mimeType file.fileTypeMeta] }
    | .error e =>
      .ok { content := ["Error adding file: " ++ e.message], isError := true }

/-- `handleToolsCall` (lines 364-439): reject a missing/non-string tool
name with invalid-params; dispatch the three known tools; throw
method-not-found for an unknown name.  Thrown errors pass through the
catch as `{ code ?? INTERNAL_ERROR, message ?? … }` — the identity on the
errors built here — and are rethrown for the RPC handler to convert into a
JSON-RPC error envelope, while `.ok` tool results (including error-flagged
ones) become successful responses. -/
def handleToolsCall (params : ToolCallParams)
    (gwContexts : Except MappedError (List Ctx))
    (gwFile gwAdd : Except MappedError FileData) :
    Except MappedError ToolResult :=
  if !truthyStr params.name then
    .error { code := JsonRpcErrorCode.INVALID_PARAMS, message := "Missing or invalid tool name" }
  else
    let toolName := params.name.getD ""
    if toolName = "get_contexts" then callGetContexts params.arguments gwContexts
    else if toolName = "get_file" then callGetFile params.arguments gwFile
    else if toolName = "add_file" then callAddFile params.arguments gwAdd
    else .error { code := JsonRpcErrorCode.METHOD_NOT_FOUND, message := "Unknown tool: " ++ toolName }

end Mcp

namespace Mcp

/-- C4: for a well-formed `tools/call` invocation, a failure from the
backend gateway is caught and returned as a successful RPC result whose
payload is an error-flagged tool result with human-readable diagnostic
text; whereas an unknown tool name is raised as a method-not-found
protocol error and a missing or invalid required argument (here
`project_id`, and a missing tool name) is raised as an invalid-params
protocol error — both destined for a JSON-RPC error envelope. -/
theorem C4_tool_error_channels :
    (∀ (args : ToolCallArgs) gwf gwa (e : MappedError) pid,
      args.project_id = some pid → uuidTest pid = true →
      handleToolsCall { name := some "get_contexts", arguments := args } (.error e) gwf gwa =
        .ok { content := ["Error getting contexts: " ++ e.message], isError := true }) ∧
    (∀ nm gwc gwf gwa (args : ToolCallArgs), nm ≠ "" →
      nm ≠ "get_contexts" → nm ≠ "get_file" → nm ≠ "add_file" →
      handleToolsCall { name := some nm, arguments := args } gwc gwf gwa =
        .error { code := JsonRpcErrorCode.METHOD_NOT_FOUND, message := "Unknown tool: " ++ nm }) ∧
    (∀ gwc gwf gwa (args : ToolCallArgs), args.project_id = none →
      handleToolsCall { name := some "get_contexts", arguments := args } gwc gwf gwa =
        .error { code := JsonRpcErrorCode.INVALID_PARAMS, message := "Invalid or missing project_id" }) ∧
    (∀ gwc gwf gwa (args : ToolCallArgs) pid,
      args.project_id = some pid → uuidTest pid = false →
      handleToolsCall { name := some "get_contexts", arguments := args } gwc gwf gwa =
        .error { code := JsonRpcErrorCode.INVALID_PARAMS, message := "Invalid or missing project_id" }) ∧
    (∀ gwc gwf gwa (args : ToolCallArgs),
      handleToolsCall { name := none, arguments := args } gwc gwf gwa =
        .error { code := JsonRpcErrorCode.INVALID_PARAMS, message := "Missing or invalid tool name" }) := by
  refine ⟨?_, ?_, ?_, ?_, ?_⟩
  · intro args gwf gwa e pid hpid huuid
    have hne : pid ≠ "" := by
      intro h; rw [h] at huuid; exact absurd huuid (by decide)
    simp [handleToolsCall, callGetContexts, truthyStr, hpid, hne, huuid]
  · intro nm gwc gwf gwa args hne h1 h2 h3
    simp [handleToolsCall, truthyStr, hne, h1, h2, h3]
  · intro gwc gwf gwa args hnone
    simp [handleToolsCall, callGetContexts, truthyStr, hnone]
  · intro gwc gwf gwa args pid hpid huuid
    by_cases hne : pid = ""
    · subst hne; simp [handleToolsCall, callGetContexts, truthyStr, hpid]
    · simp [handleToolsCall, callGetContexts, truthyStr, hpid, hne, huuid]
  · intro gwc gwf gwa args
    simp [handleToolsCall, truthyStr]

/-- Witness for C4: an otherwise well-formed `get_contexts` call whose
gateway GET fails with a mapped 503 error yields a successful error-flagged
tool result; an `unknown_tool` name yields method-not-found; a missing
`project_id` yields invalid-params. -/
theorem C4_tool_error_channels_witness :
    handleToolsCall
        { name := some "get_contexts",
          arguments := { project_id := some "12345678-1234-1234-8abc-123456789012" } }
        (.error { code := JsonRpcErrorCode.SERVICE_UNAVAILABLE, message := "Service unavailable" })
        (.ok ⟨"f", "i", 0, "c", none, none⟩) (.ok ⟨"f", "i", 0, "c", none, none⟩) =
      .ok { content := ["Error getting contexts: Service unavailable"], isError := true } ∧
    handleToolsCall { name := some "unknown_tool", arguments := {} }
        (.ok []) (.ok ⟨"f", "i", 0, "c", none, none⟩) (.ok ⟨"f", "i", 0, "c", none, none⟩) =
      .error { code := JsonRpcErrorCode.METHOD_NOT_FOUND, message := "Unknown tool: unknown_tool" } ∧
    handleToolsCall { name := some "get_contexts", arguments := {} }
        (.ok []) (.ok ⟨"f", "i", 0, "c", none, none⟩) (.ok ⟨"f", "i", 0, "c", none, none⟩) =
      .error { code := JsonRpcErrorCode.INVALID_PARAMS, message := "Invalid or missing project_id" } := by
  refine ⟨?_, ?_, ?_⟩
  · exact C4_tool_error_channels.1 _ _ _ _ _ rfl (by decide)
  · exact C4_tool_error_channels.2.1 "unknown_tool" _ _ _ _ (by decide) (by decide) (by decide) (by decide)
  · exact C4_tool_error_channels.2.2.1 _ _ _ _ rfl

end Mcp

namespace Mcp

/-! ## File creation with write deduplication — sequential slices
(`src/server.ts`: `performFileCreation` lines 413-450,
`performActualFileCreation` lines 452-523,
`handleGenerateInitialContext` lines 525-561,
`performInitialContextCreation` lines 563-592) -/

/-- A context entry as the server reads it from a listing
(`c?.name`, `existing.id || 'unknown'`). -/
structure SCtx where
  name : String
  id : Option String := none
deriving Repr, DecidableEq

/-- The contexts value after the fallback chain
`response.data?.result?.contexts || response.data?.contexts ||
response.data || []`: either an array of entries or some non-array
value (which fails the `Array.isArray` guard). -/
inductive Listing
  | arr (ctxs : List SCtx)
  | nonArray
deriving Repr, DecidableEq

/-- The `data` of an axios error response, as inspected by the duplicate
check. -/
structure AxiosRespData where
  message : Option String := none
  errField : Option String := none
  detail : Option String := none
deriving Repr, DecidableEq

/-- An axios error (`httpError.response?.status`, `httpError.response?.data`,
`httpError.message`). -/
structure AxiosErr where
  respStatus : Option Nat := none
  respData : Option AxiosRespData := none
  message : String := ""
deriving Repr, DecidableEq

/-- Does `pat` occur at the head of `l`? -/
def headMatches : List Char → List Char → Bool
  | [], _ => true
  | _ :: _, [] => false
  | p :: ps, c :: cs => p == c && headMatches ps cs

/-- `String.prototype.includes`: does `pat` occur contiguously in `l`? -/
def containsSub (pat : List Char) : List Char → Bool
  | [] => pat.isEmpty
  | c :: cs => headMatches pat (c :: cs) || containsSub pat cs

/-- `s?.includes('already exists')` (optional chaining: absent → falsy). -/
def includesAlreadyExists (s : Option String) : Bool :=
  match s with
  | some str => containsSub "already exists".data str.data
  | none => false

/-- The duplicate-file test of `performActualFileCreation` (lines 486-490):
HTTP 409, or a response body whose `message`/`error`/`detail` mentions
"already exists". -/
def isDuplicateErr (e : AxiosErr) : Bool :=
  e.respStatus == some 409 ||
  (match e.respData with
   | some d => includesAlreadyExists d.message || includesAlreadyExists d.errField ||
       includesAlreadyExists d.detail
   | none => false)

/-- The created-file value after `response.data?.result?.file ||
response.data?.file || response.data`; only its `id` is read. -/
structure PostData where
  id : Option String := none
deriving Repr, DecidableEq

/-- `MCPServer.performActualFileCreation` (lines 452-523), sequentially,
with the three backend interactions as oracles in call order: the final
pre-check listing, the creation POST, and the listing fetched after a
duplicate conflict.  Returns the tool result and whether the creation POST
was issued.  A failing or non-array pre-check proceeds to the POST; a
duplicate-classified POST failure is resolved to a non-error result; any
other POST failure is caught by the outer catch as an error-flagged
result. -/
def performActualFileCreation (filename : String)
    (pre : Except AxiosErr Listing) (post : Except AxiosErr PostData)
    (confl : Except AxiosErr Listing) : ToolResult × Bool :=
  let preFound : Option SCtx :=
    match pre with
    | .ok (.arr ctxs) => ctxs.find? (fun c => c.name == filename)
    | _ => none
  match preFound with
  | some existing =>
    ({ content := ["File already exists: " ++ filename ++ " (" ++ jsOrS existing.id "unknown" ++ ")"] },
     false)
  | none =>
    match post with
    | .ok created =>
      ({ content := ["File added successfully: " ++ filename ++ " (" ++ jsOrS created.id "unknown" ++ ")"] },
       true)
    | .error he =>
      if isDuplicateErr he then
        match confl with
        | .ok (.arr ctxs) =>
          match ctxs.find? (fun c => c.name == filename) with
          | some ex =>
            ({ content := ["File already exists: " ++ filename ++ " (" ++ jsOrS ex.id "unknown" ++ ")"] },
             true)
          | none => ({ content := ["File creation conflict resolved: " ++ filename] }, true)
        | .ok .nonArray => ({ content := ["File creation conflict resolved: " ++ filename] }, true)
        | .error _ => ({ content := ["File creation conflict resolved: " ++ filename] }, true)
      else
        ({ content := ["Error adding file: " ++ he.message], isError := true }, true)

/-- `MCPServer.performInitialContextCreation` (lines 563-592): list the
project's contexts first; when the listing is a non-empty array, return
the matching file's identity or a "skipped" message without creating
anything; when the array is empty, the data is not an array, or the
listing call fails, fall back to `performActualFileCreation`. -/
def performInitialContextCreation (filename : String)
    (listing : Except AxiosErr Listing)
    (pre : Except AxiosErr Listing) (post : Except AxiosErr PostData)
    (confl : Except AxiosErr Listing) : ToolResult × Bool :=
  match listing with
  | .ok (.arr ctxs) =>
    if ctxs.length > 0 then
      match ctxs.find? (fun c => c.name == filename) with
      | some ex =>
        ({ content := ["Initial context already exists: " ++ filename ++ " (" ++ jsOrS ex.id "unknown" ++ ")"] },
         false)
      | none =>
        ({ content := ["Project already has context files; skipped generating initial context. Use add_file to create additional files."] },
         false)
    else performActualFileCreation filename pre post confl
  | .ok .nonArray => performActualFileCreation filename pre post confl
  | .error _ => performActualFileCreation filename pre post confl

/-- C10: when the listing call succeeds with at least one context file, no
creation POST is issued and the result is non-error — the matching file's
identity when one has the target filename, the "skipped" message
otherwise; and conversely a creation POST can only be issued when the
listing was an empty array, not an array, or failed. -/
theorem C10_initial_context_no_post (filename : String) (ctxs : List SCtx)
    (pre : Except AxiosErr Listing) (post : Except AxiosErr PostData)
    (confl : Except AxiosErr Listing) (hne : ctxs ≠ []) :
    (performInitialContextCreation filename (.ok (.arr ctxs)) pre post confl).2 = false ∧
    (performInitialContextCreation filename (.ok (.arr ctxs)) pre post confl).1.isError = false ∧
    (∀ ex, ctxs.find? (fun c => c.name == filename) = some ex →
      (performInitialContextCreation filename (.ok (.arr ctxs)) pre post confl).1.content =
        ["Initial context already exists: " ++ filename ++ " (" ++ jsOrS ex.id "unknown" ++ ")"]) ∧
    (ctxs.find? (fun c => c.name == filename) = none →
      (performInitialContextCreation filename (.ok (.arr ctxs)) pre post confl).1.content =
        ["Project already has context files; skipped generating initial context. Use add_file to create additional files."]) ∧
    (∀ listing, (performInitialContextCreation filename listing pre post confl).2 = true →
      listing = .ok (.arr []) ∨ listing = .ok .nonArray ∨ ∃ e, listing = .error e) := by
  have hlen : ctxs.length > 0 := List.length_pos.mpr hne
  refine ⟨?_, ?_, ?_, ?_, ?_⟩
  · cases hfind : ctxs.find? (fun c => c.name == filename) <;>
      simp [performInitialContextCreation, hlen, hfind]
  · cases hfind : ctxs.find? (fun c => c.name == filename) <;>
      simp [performInitialContextCreation, hlen, hfind]
  · intro ex hfind
    simp [performInitialContextCreation, hlen, hfind]
  · intro hfind
    simp [performInitialContextCreation, hlen, hfind]
  · intro listing hpost
    match listing with
    | .error e => exact Or.inr (Or.inr ⟨e, rfl⟩)
    | .ok .nonArray => exact Or.inr (Or.inl rfl)
    | .ok (.arr cs) =>
      refine Or.inl ?_
      by_cases hcs : cs.length > 0
      · exfalso
        cases hfind : cs.find? (fun c => c.name == filename) <;>
          simp [performInitialContextCreation, hcs, hfind] at hpost
      · have : cs = [] := List.length_eq_zero.mp (by omega)
        rw [this]

/-- Witness for C10 at a one-element listing matching the target name. -/
theorem C10_initial_context_no_post_witness :
    (performInitialContextCreation "project-context.md"
        (.ok (.arr [⟨"project-context.md", some "abc"⟩]))
        (.ok (.arr [])) (.ok {}) (.ok (.arr []))).2 = false ∧
    (performInitialContextCreation "project-context.md"
        (.ok (.arr [⟨"project-context.md", some "abc"⟩]))
        (.ok (.arr [])) (.ok {}) (.ok (.arr []))).1.content =
      ["Initial context already exists: project-context.md (abc)"] := by
  have h := C10_initial_context_no_post "project-context.md"
    [⟨"project-context.md", some "abc"⟩] (.ok (.arr [])) (.ok {}) (.ok (.arr []))
    (by decide)
  exact ⟨h.1, h.2.2.1 ⟨"project-context.md", some "abc"⟩ (by decide)⟩

end Mcp

namespace Mcp

/-! ## Write-deduplication lock discipline
(`src/server.ts`: `performFileCreation` lines 439-449 and
`handleGenerateInitialContext` lines 550-560 share the same pattern:
`locks.set(key, promise); try { return await promise } finally
{ locks.delete(key) }`). -/

/-- The `globalFileCreationLocks` map, modelled by its key set (the stored
promise values are tracked separately where they matter). -/
abbrev LockMap := List String

/-- `Map.set` on the key set: adds the key (idempotent on keys). -/
def lockSet (m : LockMap) (key : String) : LockMap :=
  if m.contains key then m else key :: m

/-- `Map.delete`: removes the key. -/
def lockDelete (m : LockMap) (key : String) : LockMap :=
  m.filter (fun k => k ≠ key)

/-- The register/await/cleanup pattern of `performFileCreation` and
`handleGenerateInitialContext`: store the key, then await the operation —
which settles with `outcome`, fulfilment (success or handled conflict,
possibly error-flagged) or rejection (unhandled failure) — and delete the
key in the `finally` block on either path, passing the outcome through
unchanged. -/
def fileCreationLockSettle (m : LockMap) (key : String)
    (outcome : Except JsError ToolResult) : LockMap × Except JsError ToolResult :=
  let m1 := lockSet m key
  match outcome with
  | .ok r => (lockDelete m1 key, .ok r)
  | .error e => (lockDelete m1 key, .error e)

/-- C7: whatever way the registered operation settles — success, handled
already-exists conflict (a fulfilled, possibly error-flagged tool result),
or unhandled failure (rejection) — the key is removed from the pending map
when it settles, and the outcome is passed through untouched: no lock
entry for the key survives its operation's settlement. -/
theorem C7_lock_removed_on_settle (m : LockMap) (key : String)
    (outcome : Except JsError ToolResult) :
    (fileCreationLockSettle m key outcome).1.contains key = false ∧
    (fileCreationLockSettle m key outcome).2 = outcome := by
  have hdel : ∀ m1 : LockMap, (lockDelete m1 key).contains key = false := by
    intro m1
    induction m1 with
    | nil => rfl
    | cons a t ih =>
      by_cases h : a = key
      · simp [lockDelete, List.filter, h, ih]
      · simp [lockDelete, List.filter, h, List.contains, Ne.symm h, ih]
  cases outcome with
  | ok r => exact ⟨hdel _, rfl⟩
  | error e => exact ⟨hdel _, rfl⟩

end Mcp

namespace Mcp

/-! ## Framing codec
(`stdio-transport.ts`: `StdioTransport.extractMessage` lines 313-353,
`StdioTransport.sendMessage` lines 355-367, `processBuffer` lines 299-311).

The transport keeps `inputBuffer` as a JavaScript string (stdin is decoded
with `setEncoding('utf8')`), so the decoder measures and slices in UTF-16
code units, while `sendMessage` declares `Buffer.byteLength(content,
'utf8')` — a byte count.  Buffers are modelled as `List Char` (the adapter
only meets Basic-Multilingual-Plane text, where one `Char` is one code
unit); chunk boundaries are modelled at character granularity. -/

/-- Number of UTF-8 bytes of one character (`Buffer.byteLength` per char). -/
def utf8Width (c : Char) : Nat :=
  if c.toNat ≤ 0x7F then 1 else if c.toNat ≤ 0x7FF then 2
  else if c.toNat ≤ 0xFFFF then 3 else 4

/-- `Buffer.byteLength(s, 'utf8')`. -/
def byteLength (s : List Char) : Nat := (s.map utf8Width).sum

/-- `HEADER_SEPARATOR = '\r\n\r\n'`. -/
def SEP : List Char := ['\r', '\n', '\r', '\n']

/-- ASCII decimal digit (`\d` over the inputs at hand). -/
def isDigitC (c : Char) : Bool := 48 ≤ c.toNat && c.toNat ≤ 57

/-- Numeric value of a decimal digit character. -/
def digitVal (c : Char) : Nat := c.toNat - 48

/-- JavaScript regex `\s` restricted to ASCII (space, tab, LF, CR, VT, FF). -/
def isSpaceC (c : Char) : Bool :=
  c.toNat = 32 || c.toNat = 9 || c.toNat = 10 || c.toNat = 13 || c.toNat = 11 || c.toNat = 12

/-- ASCII lowercasing, for the `i` regex flag. -/
def asciiLower (c : Char) : Char :=
  if 65 ≤ c.toNat && c.toNat ≤ 90 then Char.ofNat (c.toNat + 32) else c

/-- Decimal rendering of a number, most significant digit first: the
template interpolation `${contentLength}`.  `fuel` bounds the digit count;
`natToDecimal` supplies `n + 1`, which always suffices. -/
def natToDecimalGo : Nat → Nat → List Char → List Char
  | 0, _, acc => acc
  | fuel + 1, n, acc =>
    let d := Char.ofNat (48 + n % 10)
    let q := n / 10
    if q = 0 then d :: acc else natToDecimalGo fuel q (d :: acc)

/-- Decimal rendering of `n` (JavaScript number-to-string on a Nat). -/
def natToDecimal (n : Nat) : List Char := natToDecimalGo (n + 1) n []

/-- Maximal digit-run parser from the head of a list, accumulating the
value: the capture group `(\d+)` followed by `parseInt(…, 10)`. -/
def parseDigitsAux (acc : Nat) : List Char → Nat
  | [] => acc
  | c :: cs => if isDigitC c then parseDigitsAux (acc * 10 + digitVal c) cs else acc

/-- Consume a literal tag case-insensitively from the head of the input
(the `Content-Length:` part of the regex with the `i` flag). -/
def dropTagCI : List Char → List Char → Option (List Char)
  | [], rest => some rest
  | _ :: _, [] => none
  | p :: ps, c :: cs => if asciiLower p == asciiLower c then dropTagCI ps cs else none

/-- After the tag: `\s*(\d+)` — skip whitespace, require at least one
digit, return the parsed run. -/
def clDigits (rest : List Char) : Option Nat :=
  match rest.dropWhile isSpaceC with
  | [] => none
  | c :: cs2 => if isDigitC c then some (parseDigitsAux 0 (c :: cs2)) else none

/-- One attempted match of `Content-Length:\s*(\d+)` (case-insensitive) at
the head of the input. -/
def matchCLAt (cs : List Char) : Option Nat :=
  (dropTagCI "content-length:".data cs).bind clDigits

/-- `headerSection.match(/Content-Length:\s*(\d+)/i)`: leftmost match —
try each start position in order.  The `isNaN`/negative guards of the
source are unreachable for a `\d+` capture and have no counterpart. -/
def matchContentLength : List Char → Option Nat
  | [] => none
  | c :: cs =>
    match matchCLAt (c :: cs) with
    | some n => some n
    | none => matchContentLength cs

/-- `inputBuffer.indexOf(HEADER_SEPARATOR)` as an optional index. -/
def indexOfSep : List Char → Option Nat
  | [] => none
  | c :: cs => if headMatches SEP (c :: cs) then some 0 else (indexOfSep cs).map (· + 1)

/-- The three outcomes of one `extractMessage` call: return `null` leaving
the buffer as is (incomplete header or body), return `null` after
discarding through a malformed header (resynchronization), or extract one
framed message and consume it. -/
inductive ExtractResult
  | waiting (buf : List Char)
  | resync (buf : List Char)
  | message (content rest : List Char)
deriving Repr, DecidableEq

/-- `StdioTransport.extractMessage` (lines 313-353): find the header
separator; parse `Content-Length` out of the header section (discarding
through the separator when the header has no parsable length); wait unless
the buffer holds `contentStart + contentLength` **characters** (the
source compares `this.inputBuffer.length`, a UTF-16 code-unit count,
against the declared byte count); then slice the body out with
`substring`, again in code units. -/
def extractMessage (buf : List Char) : ExtractResult :=
  match indexOfSep buf with
  | none => .waiting buf
  | some headerEndIndex =>
    match matchContentLength (buf.take headerEndIndex) with
    | none => .resync (buf.drop (headerEndIndex + SEP.length))
    | some contentLength =>
      if buf.length < headerEndIndex + SEP.length + contentLength then .waiting buf
      else .message ((buf.drop (headerEndIndex + SEP.length)).take contentLength)
             (buf.drop (headerEndIndex + SEP.length + contentLength))

/-- The `while (true)` loop of `processBuffer` (lines 299-311): repeatedly
extract until `extractMessage` returns `null`, collecting the extracted
message bodies in order.  Each extraction consumes at least the four
separator characters, so `buf.length + 1` iterations (supplied by `drain`)
can never be exhausted; the fuel only makes the recursion structural. -/
def drainGo : Nat → List Char → List Char × List (List Char)
  | 0, buf => (buf, [])
  | fuel + 1, buf =>
    match extractMessage buf with
    | .message content rest =>
      let r := drainGo fuel rest
      (r.1, content :: r.2)
    | .waiting b => (b, [])
    | .resync b => (b, [])

/-- `processBuffer` on a buffer: the buffer left over and the message
bodies emitted, in order. -/
def drain (buf : List Char) : List Char × List (List Char) :=
  drainGo (buf.length + 1) buf

/-- One `data` event (lines 283-288): append the chunk to `inputBuffer`
and run `processBuffer`. -/
def feedChunk (st chunk : List Char) : List Char × List (List Char) :=
  drain (st ++ chunk)

/-- Feed a sequence of chunks, concatenating the emissions. -/
def feedAll (st : List Char) : List (List Char) → List Char × List (List Char)
  | [] => (st, [])
  | ch :: rest =>
    let r1 := feedChunk st ch
    let r2 := feedAll r1.1 rest
    (r2.1, r1.2 ++ r2.2)

/-- The header part written by `sendMessage` for a body:
`Content-Length: ` followed by the decimal **byte** length of the body. -/
def headerOf (body : List Char) : List Char :=
  "Content-Length: ".data ++ natToDecimal (byteLength body)

/-- `StdioTransport.sendMessage` framing (lines 355-367):
`` `${CONTENT_LENGTH_HEADER} ${contentLength}${HEADER_SEPARATOR}${content}` ``. -/
def encodeFrame (body : List Char) : List Char := headerOf body ++ SEP ++ body

/-- A body whose characters are all single-byte UTF-8 (ASCII). -/
def asciiOnly (body : List Char) : Bool := body.all (fun c => c.toNat ≤ 127)

end Mcp


namespace Mcp

theorem natToDecimalGo_append (fuel : Nat) :
    ∀ n acc, natToDecimalGo fuel n acc = natToDecimalGo fuel n [] ++ acc := by
  induction fuel with
  | zero => intro n acc; rfl
  | succ fuel ih =>
    intro n acc
    by_cases hq : n / 10 = 0
    · simp [natToDecimalGo, hq]
    · simp only [natToDecimalGo, hq, if_false]
      rw [ih (n / 10) (Char.ofNat (48 + n % 10) :: acc),
          ih (n / 10) [Char.ofNat (48 + n % 10)]]
      simp

theorem charOfNat_digit (r : Nat) (h : r < 10) :
    isDigitC (Char.ofNat (48 + r)) = true ∧ (Char.ofNat (48 + r)).toNat = 48 + r := by
  interval_cases r <;> exact ⟨rfl, rfl⟩

theorem natToDecimalGo_digits (fuel : Nat) :
    ∀ n c, c ∈ natToDecimalGo fuel n [] → isDigitC c = true := by
  induction fuel with
  | zero => intro n c h; simp [natToDecimalGo] at h
  | succ fuel ih =>
    intro n c h
    by_cases hq : n / 10 = 0
    · simp [natToDecimalGo, hq] at h
      subst h
      exact (charOfNat_digit (n % 10) (Nat.mod_lt _ (by norm_num))).1
    · simp only [natToDecimalGo, hq, if_false] at h
      rw [natToDecimalGo_append] at h
      rcases List.mem_append.mp h with h1 | h1
      · exact ih _ _ h1
      · simp at h1
        subst h1
        exact (charOfNat_digit (n % 10) (Nat.mod_lt _ (by norm_num))).1

theorem natToDecimalGo_val (fuel : Nat) :
    ∀ n, n ≤ fuel → (natToDecimalGo (fuel + 1) n []).foldl (fun a c => a * 10 + digitVal c) 0 = n := by
  induction fuel with
  | zero =>
    intro n hn
    interval_cases n
    decide
  | succ fuel ih =>
    intro n hn
    by_cases hq : n / 10 = 0
    · have hlt : n < 10 := by omega
      show (natToDecimalGo (fuel + 2) n []).foldl _ 0 = n
      simp [natToDecimalGo, hq, digitVal, (charOfNat_digit (n % 10) (by omega)).2]
      omega
    · have h10 : 10 * (n / 10) ≤ n := Nat.mul_div_le n 10
      have hq1 : 1 ≤ n / 10 := Nat.one_le_iff_ne_zero.mpr hq
      have hstep : natToDecimalGo (fuel + 2) n [] =
          natToDecimalGo (fuel + 1) (n / 10) [Char.ofNat (48 + n % 10)] := by
        conv_lhs => rw [natToDecimalGo]
        simp only [hq, if_false]
      show (natToDecimalGo (fuel + 2) n []).foldl _ 0 = n
      rw [hstep, natToDecimalGo_append, List.foldl_append, ih (n / 10) (by omega)]
      simp [digitVal, (charOfNat_digit (n % 10) (by omega)).2]
      omega

theorem parseDigitsAux_all (ds : List Char) :
    ∀ acc, (∀ c ∈ ds, isDigitC c = true) →
      parseDigitsAux acc ds = ds.foldl (fun a c => a * 10 + digitVal c) acc := by
  induction ds with
  | nil => intro acc _; rfl
  | cons c cs ih =>
    intro acc hall
    have hc : isDigitC c = true := hall c (by simp)
    simp only [parseDigitsAux, hc, if_true, List.foldl_cons]
    exact ih _ (fun x hx => hall x (by simp [hx]))

theorem natToDecimal_ne_nil (n : Nat) : natToDecimal n ≠ [] := by
  show natToDecimalGo (n + 1) n [] ≠ []
  by_cases hq : n / 10 = 0
  · simp [natToDecimalGo, hq]
  · cases n with
    | zero => simp at hq
    | succ m =>
      show natToDecimalGo (m + 2) (m + 1) [] ≠ []
      conv_lhs => rw [natToDecimalGo]
      simp only [hq, if_false]
      rw [natToDecimalGo_append]
      simp

theorem natToDecimal_digits (n : Nat) : ∀ c ∈ natToDecimal n, isDigitC c = true :=
  fun c hc => natToDecimalGo_digits (n + 1) n c hc

theorem natToDecimal_val (n : Nat) :
    (natToDecimal n).foldl (fun a c => a * 10 + digitVal c) 0 = n :=
  natToDecimalGo_val n n (Nat.le_refl n)

theorem digit_not_space (c : Char) (h : isDigitC c = true) : isSpaceC c = false := by
  simp only [isDigitC, Bool.and_eq_true, decide_eq_true_eq] at h
  simp only [isSpaceC, Bool.or_eq_false_iff, decide_eq_false_iff_not]
  omega

theorem matchContentLength_header (n : Nat) :
    matchContentLength ("Content-Length: ".data ++ natToDecimal n) = some n := by
  obtain ⟨d, tl, hds⟩ : ∃ d tl, natToDecimal n = d :: tl := by
    cases hcase : natToDecimal n with
    | nil => exact absurd hcase (natToDecimal_ne_nil n)
    | cons d tl => exact ⟨d, tl, rfl⟩
  have hdig : isDigitC d = true := by
    apply natToDecimal_digits
    rw [hds]; simp
  have htag : dropTagCI "content-length:".data ("Content-Length: ".data ++ natToDecimal n) =
      some (' ' :: natToDecimal n) := rfl
  have hdw : (' ' :: natToDecimal n).dropWhile isSpaceC = d :: tl := by
    rw [hds]
    simp [List.dropWhile_cons, show isSpaceC ' ' = true from rfl, digit_not_space d hdig]
  have hparse : parseDigitsAux 0 (d :: tl) = n := by
    rw [← hds, parseDigitsAux_all _ _ (natToDecimal_digits n), natToDecimal_val]
  have hmatchAt : matchCLAt ("Content-Length: ".data ++ natToDecimal n) = some n := by
    rw [matchCLAt, htag, Option.some_bind, clDigits, hdw]
    simp only [hdig, if_true, hparse]
  show matchContentLength ('C' :: ("ontent-Length: ".data ++ natToDecimal n)) = some n
  rw [matchContentLength]
  rw [show matchCLAt ('C' :: ("ontent-Length: ".data ++ natToDecimal n)) = some n from hmatchAt]

theorem byteLength_ascii (body : List Char) (h : asciiOnly body = true) :
    byteLength body = body.length := by
  induction body with
  | nil => rfl
  | cons c cs ih =>
    simp only [asciiOnly, List.all_cons, Bool.and_eq_true] at h
    have hc : utf8Width c = 1 := by
      simp only [utf8Width, if_pos (show c.toNat ≤ 0x7F by simpa using h.1)]
    simp only [byteLength, List.map_cons, List.sum_cons, hc, List.length_cons]
    rw [show (cs.map utf8Width).sum = byteLength cs from rfl, ih h.2]
    omega

theorem digit_ne_cr (c : Char) (h : isDigitC c = true) : c ≠ '\r' := by
  intro hc; subst hc; simp [isDigitC] at h

theorem headerOf_no_cr (body : List Char) : ∀ c ∈ headerOf body, c ≠ '\r' := by
  intro c hc
  rcases List.mem_append.mp hc with h1 | h1
  · have hconc : ∀ x ∈ "Content-Length: ".data, x ≠ '\r' := by decide
    exact hconc c h1
  · exact digit_ne_cr c (natToDecimal_digits _ c h1)

theorem headMatches_sep_false (c : Char) (cs : List Char) (hc : c ≠ '\r') :
    headMatches SEP (c :: cs) = false := by
  simp [SEP, headMatches, beq_iff_eq, Ne.symm hc]

theorem headMatches_append_self (p : List Char) : ∀ r, headMatches p (p ++ r) = true := by
  induction p with
  | nil => intro r; rfl
  | cons x xs ih => intro r; simp [headMatches, ih r]

theorem indexOfSep_none_of_no_cr (l : List Char) (h : ∀ c ∈ l, c ≠ '\r') :
    indexOfSep l = none := by
  induction l with
  | nil => rfl
  | cons c cs ih =>
    rw [indexOfSep, if_neg (by simp [headMatches_sep_false c cs (h c (by simp))]),
        ih (fun x hx => h x (by simp [hx]))]
    rfl

theorem indexOfSep_sepFragment (l s : List Char) (hl : ∀ c ∈ l, c ≠ '\r')
    (hs : s = [] ∨ s = ['\r'] ∨ s = ['\r', '\n'] ∨ s = ['\r', '\n', '\r']) :
    indexOfSep (l ++ s) = none := by
  induction l with
  | nil =>
    rcases hs with rfl | rfl | rfl | rfl <;> decide
  | cons c cs ih =>
    rw [List.cons_append, indexOfSep,
        if_neg (by simp [headMatches_sep_false c _ (hl c (by simp))]),
        ih (fun x hx => hl x (by simp [hx]))]
    rfl

theorem indexOfSep_at (l rest : List Char) (hl : ∀ c ∈ l, c ≠ '\r') :
    indexOfSep (l ++ (SEP ++ rest)) = some l.length := by
  induction l with
  | nil =>
    have hm : headMatches SEP (SEP ++ rest) = true := headMatches_append_self SEP rest
    show indexOfSep (SEP ++ rest) = some 0
    rw [show SEP ++ rest = '\r' :: ('\n' :: '\r' :: '\n' :: rest) from rfl] at hm ⊢
    rw [indexOfSep, if_pos hm]
  | cons c cs ih =>
    rw [List.cons_append, indexOfSep,
        if_neg (by simp [headMatches_sep_false c _ (hl c (by simp))]),
        ih (fun x hx => hl x (by simp [hx]))]
    rfl

theorem extractMessage_waiting_of_none (buf : List Char) (h : indexOfSep buf = none) :
    extractMessage buf = .waiting buf := by
  unfold extractMessage
  rw [h]

theorem extractMessage_complete_case (buf : List Char) (i n : Nat)
    (hidx : indexOfSep buf = some i) (hm : matchContentLength (buf.take i) = some n) :
    extractMessage buf =
      if buf.length < i + SEP.length + n then ExtractResult.waiting buf
      else ExtractResult.message ((buf.drop (i + SEP.length)).take n)
        (buf.drop (i + SEP.length + n)) := by
  unfold extractMessage
  rw [hidx]
  show (match matchContentLength (buf.take i) with
        | none => ExtractResult.resync (buf.drop (i + SEP.length))
        | some n => if buf.length < i + SEP.length + n then ExtractResult.waiting buf
            else ExtractResult.message ((buf.drop (i + SEP.length)).take n)
              (buf.drop (i + SEP.length + n))) =
      if buf.length < i + SEP.length + n then ExtractResult.waiting buf
      else ExtractResult.message ((buf.drop (i + SEP.length)).take n)
        (buf.drop (i + SEP.length + n))
  rw [hm]

theorem matchContentLength_headerOf (body : List Char) :
    matchContentLength (headerOf body) = some (byteLength body) :=
  matchContentLength_header (byteLength body)

theorem extract_waiting_incomplete (body b : List Char) (hlt : b.length < byteLength body) :
    extractMessage (headerOf body ++ (SEP ++ b)) = .waiting (headerOf body ++ (SEP ++ b)) := by
  rw [extractMessage_complete_case (headerOf body ++ (SEP ++ b)) (headerOf body).length
        (byteLength body) (indexOfSep_at (headerOf body) b (headerOf_no_cr body))
        (by rw [List.take_left]; exact matchContentLength_headerOf body)]
  rw [if_pos (by simp [SEP]; omega)]

theorem extract_full (body : List Char) (hascii : asciiOnly body = true) :
    extractMessage (headerOf body ++ (SEP ++ body)) = .message body [] := by
  have hN : byteLength body = body.length := byteLength_ascii body hascii
  rw [extractMessage_complete_case (headerOf body ++ (SEP ++ body)) (headerOf body).length
        (byteLength body) (indexOfSep_at (headerOf body) body (headerOf_no_cr body))
        (by rw [List.take_left]; exact matchContentLength_headerOf body)]
  rw [if_neg (by
    simp only [SEP, List.length_append, List.length_cons, List.length_nil, hN, Nat.not_lt]
    omega)]
  rw [show (headerOf body ++ (SEP ++ body)).drop ((headerOf body).length + SEP.length) =
        body from by rw [← List.drop_drop, List.drop_left, List.drop_left]]
  rw [hN, List.take_length]
  rw [show (headerOf body ++ (SEP ++ body)).drop ((headerOf body).length + SEP.length + body.length) =
        [] from by
      rw [Nat.add_assoc, ← List.drop_drop, List.drop_left, ← List.drop_drop, List.drop_left,
          List.drop_length]]

theorem sep_split (c2 a2 : List Char) (h : SEP = c2 ++ a2) :
    c2 = [] ∨ c2 = ['\r'] ∨ c2 = ['\r', '\n'] ∨ c2 = ['\r', '\n', '\r'] ∨ (c2 = SEP ∧ a2 = []) := by
  rcases c2 with _ | ⟨x1, _ | ⟨x2, _ | ⟨x3, _ | ⟨x4, rest⟩⟩⟩⟩
  · exact Or.inl rfl
  · simp [SEP] at h
    exact Or.inr (Or.inl (by simp [← h.1]))
  · simp [SEP] at h
    exact Or.inr (Or.inr (Or.inl (by simp [← h.1, ← h.2.1])))
  · simp [SEP] at h
    exact Or.inr (Or.inr (Or.inr (Or.inl (by simp [← h.1, ← h.2.1, ← h.2.2.1]))))
  · simp [SEP] at h
    obtain ⟨h1, h2, h3, h4, h5⟩ := h
    rcases rest with _ | ⟨y, t⟩
    · have ha2 : a2 = [] := by simpa using h5
      exact Or.inr (Or.inr (Or.inr (Or.inr
        ⟨by simp [SEP, ← h1, ← h2, ← h3, ← h4], ha2⟩)))
    · exact absurd h5 (by simp)

theorem extract_waiting_properPre (body p q : List Char)
    (hascii : asciiOnly body = true)
    (hpq : p ++ q = encodeFrame body) (hq : q ≠ []) :
    extractMessage p = .waiting p := by
  have hframe : p ++ q = headerOf body ++ (SEP ++ body) := by
    rw [hpq]; simp [encodeFrame]
  rcases List.append_eq_append_iff.mp hframe with ⟨a1, ha1, _⟩ | ⟨c2, hc1, hc2⟩
  · apply extractMessage_waiting_of_none
    apply indexOfSep_none_of_no_cr
    intro c hc
    exact headerOf_no_cr body c (ha1 ▸ List.mem_append_left a1 hc)
  · rcases List.append_eq_append_iff.mp hc2.symm with ⟨a2, ha2, hq2⟩ | ⟨s2, hs1, hs2⟩
    · rcases sep_split c2 a2 ha2 with h0 | h0 | h0 | h0 | ⟨h0, h0a⟩
      all_goals subst h0
      · have hp : p = headerOf body := by simpa using hc1
        subst hp
        exact extractMessage_waiting_of_none _
          (indexOfSep_none_of_no_cr _ (headerOf_no_cr body))
      · subst hc1
        exact extractMessage_waiting_of_none _
          (indexOfSep_sepFragment _ _ (headerOf_no_cr body) (by simp))
      · subst hc1
        exact extractMessage_waiting_of_none _
          (indexOfSep_sepFragment _ _ (headerOf_no_cr body) (by simp))
      · subst hc1
        exact extractMessage_waiting_of_none _
          (indexOfSep_sepFragment _ _ (headerOf_no_cr body) (by simp))
      · subst h0a
        subst hc1
        have hbq : q = body := by simpa using hq2
        have hlen : ([] : List Char).length < byteLength body := by
          rw [byteLength_ascii body hascii, ← hbq]
          simpa using List.length_pos.mpr hq
        have := extract_waiting_incomplete body [] hlen
        simpa using this
    · subst hs1
      subst hc1
      apply extract_waiting_incomplete
      rw [byteLength_ascii body hascii, hs2]
      simp only [List.length_append]
      have := List.length_pos.mpr hq
      omega

theorem drainGo_waiting (fuel : Nat) (buf : List Char)
    (h : extractMessage buf = .waiting buf) : drainGo (fuel + 1) buf = (buf, []) := by
  show (match extractMessage buf with
        | .message content rest =>
          ((drainGo fuel rest).1, content :: (drainGo fuel rest).2)
        | .waiting b => (b, [])
        | .resync b => (b, [])) = (buf, [])
  rw [h]

theorem drain_waiting (buf : List Char) (h : extractMessage buf = .waiting buf) :
    drain buf = (buf, []) :=
  drainGo_waiting buf.length buf h

theorem drain_nil : drain ([] : List Char) = ([], []) :=
  drain_waiting [] (extractMessage_waiting_of_none [] rfl)

theorem drain_properPre (body p q : List Char) (hascii : asciiOnly body = true)
    (hpq : p ++ q = encodeFrame body) (hq : q ≠ []) : drain p = (p, []) :=
  drain_waiting p (extract_waiting_properPre body p q hascii hpq hq)

theorem drain_full (body : List Char) (hascii : asciiOnly body = true) :
    drain (encodeFrame body) = ([], [body]) := by
  have henc : encodeFrame body = headerOf body ++ (SEP ++ body) := by simp [encodeFrame]
  show drainGo ((encodeFrame body).length + 1) (encodeFrame body) = ([], [body])
  rw [show (encodeFrame body).length + 1 = ((encodeFrame body).length) + 1 from rfl]
  show (match extractMessage (encodeFrame body) with
        | .message content rest =>
          ((drainGo (encodeFrame body).length rest).1,
            content :: (drainGo (encodeFrame body).length rest).2)
        | .waiting b => (b, [])
        | .resync b => (b, [])) = ([], [body])
  rw [show extractMessage (encodeFrame body) = .message body [] from by
        rw [henc]; exact extract_full body hascii]
  have hlen : ∃ k, (encodeFrame body).length = k + 1 := by
    refine ⟨(encodeFrame body).length - 1, ?_⟩
    have : 0 < (encodeFrame body).length := by
      rw [henc]
      simp [SEP]
    omega
  obtain ⟨k, hk⟩ := hlen
  rw [hk]
  show ((drainGo (k + 1) []).1, body :: (drainGo (k + 1) []).2) = ([], [body])
  rw [drainGo_waiting k [] (extractMessage_waiting_of_none [] rfl)]

theorem feedAll_all_nil (chunks : List (List Char)) (h : chunks.flatten = []) :
    feedAll [] chunks = ([], []) := by
  induction chunks with
  | nil => rfl
  | cons ch rest ih =>
    simp only [List.flatten_cons, List.append_eq_nil] at h
    obtain ⟨rfl, hrest⟩ := h
    simp only [feedAll, feedChunk, List.append_nil, List.nil_append, drain_nil, ih hrest]

theorem feedAll_complete (body : List Char) (hascii : asciiOnly body = true) :
    ∀ (chunks : List (List Char)) (p : List Char),
      p ++ chunks.flatten = encodeFrame body → p ≠ encodeFrame body →
      feedAll p chunks = ([], [body]) := by
  intro chunks
  induction chunks with
  | nil =>
    intro p hpq hp
    simp only [List.flatten_nil, List.append_nil] at hpq
    exact absurd hpq hp
  | cons ch rest ih =>
    intro p hpq hp
    have hassoc : (p ++ ch) ++ rest.flatten = encodeFrame body := by
      rw [← hpq, List.flatten_cons]
      simp
    by_cases hfull : p ++ ch = encodeFrame body
    · have hrest : rest.flatten = [] := by
        rw [hfull] at hassoc
        exact List.append_right_eq_self.mp hassoc
      simp only [feedAll, feedChunk]
      rw [hfull, drain_full body hascii, feedAll_all_nil rest hrest]
      rfl
    · have hqne : rest.flatten ≠ [] := by
        intro hnil
        rw [hnil, List.append_nil] at hassoc
        exact hfull hassoc
      simp only [feedAll, feedChunk]
      rw [drain_properPre body (p ++ ch) rest.flatten hascii hassoc hqne]
      rw [ih (p ++ ch) hassoc hfull]
      rfl

theorem feedAll_partialFrame (body : List Char) (hascii : asciiOnly body = true) :
    ∀ (chunks : List (List Char)) (p q : List Char),
      (p ++ chunks.flatten) ++ q = encodeFrame body → q ≠ [] →
      feedAll p chunks = (p ++ chunks.flatten, []) := by
  intro chunks
  induction chunks with
  | nil =>
    intro p q _ _
    simp [feedAll]
  | cons ch rest ih =>
    intro p q hpq hquestion
    have hassoc : ((p ++ ch) ++ rest.flatten) ++ q = encodeFrame body := by
      rw [← hpq, List.flatten_cons]
      simp
    have hne2 : rest.flatten ++ q ≠ [] := by
      simp only [ne_eq, List.append_eq_nil, not_and]
      intro _
      exact hquestion
    have hpre : (p ++ ch) ++ (rest.flatten ++ q) = encodeFrame body := by
      rw [← hassoc]
      simp
    simp only [feedAll, feedChunk]
    rw [drain_properPre body (p ++ ch) (rest.flatten ++ q) hascii hpre hne2]
    rw [ih (p ++ ch) q hassoc hquestion]
    simp [List.flatten_cons]

end Mcp

namespace Mcp

/-- The serialized body `{"a":"é"}`: nine JavaScript characters but ten
UTF-8 bytes (`é` is two bytes). -/
def nonAsciiBody : List Char := "\x7b\x22a\x22:\x22é\x22\x7d".data

/-- C2 counterexample: the framing round-trip fails for a JSON-serializable
message with a non-ASCII character.  `sendMessage` declares the UTF-8 byte
length (10) while the decoder counts UTF-16 code units, so after the whole
encoded frame has been fed the codec emits nothing at all — not the
message — because the 9-character body never reaches the declared count
of 10. -/
theorem C2_nonascii_counterexample :
    (feedAll [] [encodeFrame nonAsciiBody]).2 = [] ∧
    (feedAll [] [encodeFrame nonAsciiBody]).2 ≠ [nonAsciiBody] ∧
    byteLength nonAsciiBody = 10 ∧ nonAsciiBody.length = 9 := by
  decide

/-- C2 (amended to ASCII bodies): for every message body consisting solely
of single-byte (ASCII) characters, encoding it and feeding the encoded
frame to the decoder in arbitrarily-sized chunks emits exactly that body;
no message is emitted while the accumulated input is still short of the
full frame; and the body's byte length equals its character count, hence
exactly the declared Content-Length. -/
theorem C2_ascii_framing_roundtrip (body : List Char) (chunks : List (List Char))
    (hascii : asciiOnly body = true)
    (hjoin : chunks.flatten = encodeFrame body) :
    (feedAll [] chunks).2 = [body] ∧
    (∀ k, (chunks.take k).flatten ≠ encodeFrame body →
      (feedAll [] (chunks.take k)).2 = []) ∧
    byteLength body = body.length := by
  have h4 : (encodeFrame body).length = (headerOf body).length + (4 + body.length) := by
    simp [encodeFrame, SEP]
    omega
  have hne : ([] : List Char) ≠ encodeFrame body := by
    intro h
    have hlen := congrArg List.length h
    simp only [List.length_nil] at hlen
    omega
  refine ⟨?_, ?_, byteLength_ascii body hascii⟩
  · rw [feedAll_complete body hascii chunks [] (by simpa using hjoin) hne]
  · intro k hk
    have hsplit : (chunks.take k).flatten ++ (chunks.drop k).flatten = encodeFrame body := by
      rw [← List.flatten_append, List.take_append_drop, hjoin]
    have hqne : (chunks.drop k).flatten ≠ [] := by
      intro h0
      rw [h0, List.append_nil] at hsplit
      exact hk hsplit
    rw [feedAll_partialFrame body hascii (chunks.take k) [] (chunks.drop k).flatten
        (by simpa using hsplit) hqne]

/-- The ASCII body `{"a":1}` used to witness the round-trip. -/
def asciiBody : List Char := "\x7b\x22a\x22:1\x7d".data

/-- Witness for the amended C2 at a concrete ASCII body split into two
chunks of 5 and 22 characters. -/
theorem C2_ascii_framing_roundtrip_witness :
    asciiOnly asciiBody = true ∧
    ([(encodeFrame asciiBody).take 5, (encodeFrame asciiBody).drop 5]).flatten =
      encodeFrame asciiBody ∧
    (feedAll [] [(encodeFrame asciiBody).take 5, (encodeFrame asciiBody).drop 5]).2 =
      [asciiBody] :=
  ⟨by decide, by decide,
   (C2_ascii_framing_roundtrip asciiBody
     [(encodeFrame asciiBody).take 5, (encodeFrame asciiBody).drop 5]
     (by decide) (by decide)).1⟩

end Mcp

namespace Mcp

/-! ## Write deduplication under concurrency
(`src/server.ts`, `performFileCreation` lines 413-450 and
`performActualFileCreation` lines 452-523.)

Two concurrent `add_file` calls for the same `(project, filename)` key are
modelled as two cooperative tasks over atomic blocks separated by `await`
points, exactly the suspension points of the source: the entry
check-and-register is a single block (it contains no `await` — the async
callee runs synchronously to its first `await` and the `Map.set` follows
in the same microtask); the pre-check GET, the creation POST, and the
post-conflict listing GET each resolve in their own block; the
`finally`-cleanup continuation is a block; a waiter resumes after the
stored promise resolves and re-queries the listing in its resumption
block.  The backend is a deterministic, consistent store: listings report
exactly the files created so far, a POST creates the file when absent and
returns 409 when present.  Every interleaving is a schedule of these
blocks. -/

/-- Resolution of a file-creation call, by the text it returns. -/
inductive FcResult
  | added
  | alreadyExists
  | conflictResolved
  | errorResult
deriving Repr, DecidableEq

/-- Atomic blocks of one caller (its next `await` point). -/
inductive FcPC
  | entry
  | waitOther
  | awaitPre
  | awaitPost
  | awaitConflictList
  | finallyCleanup
  | done
deriving Repr, DecidableEq

/-- One caller: program counter, its creation promise's resolution (when it
registered one), and the call's final result. -/
structure ProcState where
  pc : FcPC
  promise : Option FcResult := none
  result : Option FcResult := none
deriving Repr, DecidableEq

/-- The whole system for one dedup key: two callers, the
`globalFileCreationLocks` entry for the key (owner of the stored promise),
whether the target file exists in the backend, and the number of creation
POSTs issued. -/
structure SysState where
  procA : ProcState
  procB : ProcState
  lock : Option Bool := none
  fileExists : Bool := false
  posts : Nat := 0
deriving Repr, DecidableEq

def procOf (s : SysState) (p : Bool) : ProcState := if p then s.procB else s.procA

def setProc (s : SysState) (p : Bool) (ps : ProcState) : SysState :=
  if p then { s with procB := ps } else { s with procA := ps }

/-- Whether caller `p` can take a step: `done` cannot; a waiter is ready
once the other caller's promise has resolved (in a two-caller system the
stored promise always belongs to the other caller). -/
def enabledP (s : SysState) (p : Bool) : Bool :=
  match (procOf s p).pc with
  | .done => false
  | .waitOther => ((procOf s (!p)).promise).isSome
  | _ => true

/-- One atomic block of caller `p`, translated from the source:
* `entry` (lines 421, 440-441): if the lock map has the key, go wait on
  the stored promise; otherwise start `performActualFileCreation` (which
  suspends at its pre-check GET) and register the promise — no `await`
  between check and register;
* `awaitPre` (lines 462-474): the pre-check GET resolves; an existing file
  resolves the promise with "already exists", otherwise proceed to POST;
* `awaitPost` (lines 476-515): the POST resolves; if the file appeared in
  the meantime the backend answers 409 and the caller proceeds to the
  conflict listing, otherwise the file is created and the promise resolves
  with "added";
* `awaitConflictList` (lines 494-510): resolve with the existing file or
  with "conflict resolved";
* `finallyCleanup` (lines 443-449): the `await creationPromise`
  continuation: take the promise's value as the call result and delete the
  lock entry in the `finally`;
* `waitOther` (lines 422-437): the awaited promise resolved; re-query the
  listing: if the file now exists return "already exists" (without ever
  registering), otherwise fall through to register an own promise. -/
def stepProc (s : SysState) (p : Bool) : SysState :=
  let me := procOf s p
  match me.pc with
  | .entry =>
    match s.lock with
    | some _ => setProc s p { me with pc := .waitOther }
    | none => { setProc s p { me with pc := .awaitPre } with lock := some p }
  | .awaitPre =>
    if s.fileExists then
      setProc s p { me with pc := .finallyCleanup, promise := some .alreadyExists }
    else setProc s p { me with pc := .awaitPost }
  | .awaitPost =>
    if s.fileExists then
      { setProc s p { me with pc := .awaitConflictList } with posts := s.posts + 1 }
    else
      { setProc s p { me with pc := .finallyCleanup, promise := some .added } with
          posts := s.posts + 1, fileExists := true }
  | .awaitConflictList =>
    if s.fileExists then
      setProc s p { me with pc := .finallyCleanup, promise := some .alreadyExists }
    else setProc s p { me with pc := .finallyCleanup, promise := some .conflictResolved }
  | .finallyCleanup =>
    { setProc s p { me with pc := .done, result := me.promise } with lock := none }
  | .waitOther =>
    if s.fileExists then
      setProc s p { me with pc := .done, result := some .alreadyExists }
    else { setProc s p { me with pc := .awaitPre } with lock := some p }
  | .done => s

/-- A scheduling step: run the chosen caller's next block if it is ready,
otherwise the other's; when neither is ready nothing happens. -/
def fairStep (s : SysState) (c : Bool) : SysState :=
  if enabledP s c then stepProc s c
  else if enabledP s (!c) then stepProc s (!c)
  else s

/-- Run a whole schedule. -/
def runSched (s : SysState) : List Bool → SysState
  | [] => s
  | c :: cs => runSched (fairStep s c) cs

/-- Both callers arrive with the target file absent and no lock held. -/
def initSys : SysState :=
  { procA := { pc := .entry }, procB := { pc := .entry } }

def sysSucc (s : SysState) : List SysState := [fairStep s true, fairStep s false]

def stepAll (ss : List SysState) : List SysState :=
  (ss ++ ss.flatMap sysSucc).dedup

/-- Breadth-first closure of the reachable states. -/
def reachN : Nat → List SysState
  | 0 => [initSys]
  | n + 1 => stepAll (reachN n)

/-- The reachable-state set: 14 rounds suffice for closure. -/
def RS : List SysState := reachN 14

def bothDone (s : SysState) : Bool :=
  s.procA.pc == .done && s.procB.pc == .done

/-- Remaining blocks of one caller, a progress measure. -/
def pcRank : FcPC → Nat
  | .entry => 6
  | .waitOther => 5
  | .awaitPre => 4
  | .awaitPost => 3
  | .awaitConflictList => 2
  | .finallyCleanup => 1
  | .done => 0

def sysMeasure (s : SysState) : Nat := pcRank s.procA.pc + pcRank s.procB.pc

/-- The claimed outcome: exactly one POST, the lock entry gone, and the two
callers resolved one "added" and one "already exists" (in either order,
neither an error). -/
def goodOutcome (s : SysState) : Bool :=
  s.posts == 1 && s.lock == none &&
  ((s.procA.result == some .added && s.procB.result == some .alreadyExists) ||
   (s.procA.result == some .alreadyExists && s.procB.result == some .added))

theorem RS_closed : ∀ s ∈ RS, ∀ c, fairStep s c ∈ RS := by decide

theorem RS_init : initSys ∈ RS := by decide

theorem RS_measure : ∀ s ∈ RS, bothDone s = false →
    ∀ c, sysMeasure (fairStep s c) < sysMeasure s := by decide

theorem RS_done_stable : ∀ s ∈ RS, bothDone s = true → ∀ c, fairStep s c = s := by decide

theorem RS_good : ∀ s ∈ RS, bothDone s = true → goodOutcome s = true := by decide

theorem RS_done_measure : ∀ s ∈ RS, sysMeasure s = 0 → bothDone s = true := by decide

theorem RS_measure_bothDone : ∀ s ∈ RS, bothDone s = true → sysMeasure s = 0 := by decide

theorem runSched_mem (sched : List Bool) : ∀ s ∈ RS, runSched s sched ∈ RS := by
  induction sched with
  | nil => intro s hs; exact hs
  | cons c cs ih => intro s hs; exact ih _ (RS_closed s hs c)

theorem runSched_done (sched : List Bool) : ∀ s ∈ RS,
    sysMeasure s ≤ sched.length → bothDone (runSched s sched) = true := by
  induction sched with
  | nil =>
    intro s hs hm
    exact RS_done_measure s hs (Nat.le_zero.mp hm)
  | cons c cs ih =>
    intro s hs hm
    by_cases hd : bothDone s = true
    · show bothDone (runSched (fairStep s c) cs) = true
      rw [RS_done_stable s hs hd c]
      exact ih s hs (by
        rw [RS_measure_bothDone s hs hd]
        exact Nat.zero_le _)
    · have hd2 : bothDone s = false := by
        cases hb : bothDone s
        · rfl
        · exact absurd hb hd
      have hlt := RS_measure s hs hd2 c
      simp only [List.length_cons] at hm
      exact ih (fairStep s c) (RS_closed s hs c) (by omega)

/-- C3: in every schedule of at least 12 blocks (enough for both callers to
finish), two concurrent `add_file` calls for the same project + filename
issue exactly one backend creation POST, both callers end with a non-error
result — one "added", the other "already exists" — and no lock entry
remains. -/
theorem C3_dedup_single_post (sched : List Bool) (hlen : 12 ≤ sched.length) :
    (runSched initSys sched).posts = 1 ∧
    (runSched initSys sched).lock = none ∧
    (((runSched initSys sched).procA.result = some .added ∧
      (runSched initSys sched).procB.result = some .alreadyExists) ∨
     ((runSched initSys sched).procA.result = some .alreadyExists ∧
      (runSched initSys sched).procB.result = some .added)) := by
  have hmem := runSched_mem sched initSys RS_init
  have hdone := runSched_done sched initSys RS_init
    (le_trans (by decide : sysMeasure initSys ≤ 12) hlen)
  have hg := RS_good _ hmem hdone
  simp only [goodOutcome, Bool.and_eq_true, Bool.or_eq_true, beq_iff_eq] at hg
  exact ⟨hg.1.1, hg.1.2, hg.2⟩

/-- Witness for C3 at the schedule that always prefers caller B. -/
theorem C3_dedup_single_post_witness :
    (runSched initSys (List.replicate 12 true)).posts = 1 ∧
    (runSched initSys (List.replicate 12 true)).lock = none := by
  have h := C3_dedup_single_post (List.replicate 12 true) (by decide)
  exact ⟨h.1, h.2.1⟩

end Mcp
